import Mathlib

set_option maxHeartbeats 1000000

/-!
Verification development for `src/image_batch_compressor.py` of the
ImageCompressor repository.

The embedding models:
- paths (`FPath`) as absolute/relative flags plus component lists, with
  `relative_to` mirroring Python's purely syntactic `Path.relative_to`,
  and `pySuffix`/`suffixLower` mirroring `Path(...).suffix.lower()`;
- the filesystem (`FS`) as a partial map from paths to byte lists, where
  a file's size is the length of its byte list;
- the external tools (`Env`) as functions from input bytes to an exit
  status plus output bytes; `cjpeg` and `pngquant` write a separate
  output file (the `.tmp` sibling of the scratch file, `tmpOf`), while
  `optipng`/`zopflipng`/`gifsicle` rewrite the scratch file in place;
- `create_backup`, `compress_jpeg`, `compress_png`, `compress_gif`,
  `compress_image` and `process_files` as direct translations of the
  source methods, with an added trace of which external tools each call
  invoked, and an explicit `JobExit` tag recording which return path of
  `compress_image` was taken.
-/

/-- A filesystem path: Python `Path` objects are anchored (absolute) or
not, with a list of name components. -/
structure FPath where
  absolute : Bool
  components : List String
deriving DecidableEq, Repr

/-- The filesystem: bytes stored at each existing path. -/
abbrev FS := FPath → Option (List Nat)

/-- The path `f..tmp` used by `cjpeg -outfile f'...tmp'` and
`pngquant --output f'...tmp'`: the last component with `.tmp` appended. -/
def tmpOf (p : FPath) : FPath :=
  ⟨p.absolute, p.components.dropLast ++ [p.components.getLastD "" ++ ".tmp"]⟩

/-- `base / rel` for a Python `Path` join of a path with a relative
component list. -/
def joinP (base : FPath) (rel : List String) : FPath :=
  ⟨base.absolute, base.components ++ rel⟩

/-- Strip a leading component list: `some` of the remainder when the
first list is a leading run of the second, else `none`. -/
def stripComponents : List String → List String → Option (List String)
  | [], ys => some ys
  | _ :: _, [] => none
  | x :: xs, y :: ys => if x = y then stripComponents xs ys else none

/-- Python `p.relative_to(base)`: purely syntactic — requires the same
anchor and `base`'s components to lead `p`'s; otherwise raises
`ValueError` (here `none`).  In particular a relative `p` can never be
expressed relative to an absolute `base`. -/
def relative_to (p base : FPath) : Option (List String) :=
  if p.absolute = base.absolute then stripComponents base.components p.components
  else none

/-- Split a character list on the dot character, as Python
`str.split('.')`. -/
def splitOnDot (cs : List Char) : List (List Char) :=
  cs.foldr
    (fun c acc =>
      if c = '.' then [] :: acc else (c :: acc.headD []) :: acc.tail)
    [[]]

/-- Python `Path(name).suffix`: the final `.ext` of the last component;
empty for names with no dot, a leading-dot-only name, or a trailing dot. -/
def pySuffix (name : String) : String :=
  let parts := splitOnDot name.data
  if parts.length ≤ 1 then ""
  else if parts.getLastD [] = [] then ""
  else if parts.length = 2 ∧ parts.headD [] = [] then ""
  else ('.' :: parts.getLastD []).asString

/-- `Path(input_path).suffix.lower()` from `compress_image`. -/
def suffixLower (p : FPath) : String :=
  ((pySuffix (p.components.getLastD "")).data.map Char.toLower).asString

/-- `self.available_tools` computed by `check_dependencies`. -/
structure AvailableTools where
  mozjpeg : Bool
  optipng : Bool
  pngquant : Bool
  zopflipng : Bool
  cwebp : Bool
  gifsicle : Bool
deriving DecidableEq, Repr

/-- The constructor arguments of `ImageCompressor`. -/
structure Config where
  backup_enabled : Bool
  backup_dir : FPath
  force_no_backup_check : Bool

/-- The host environment: current working directory, whether writing a
given backup mirror path succeeds (directory creation and `copy2`
permissions), the behavior of each external tool on given input bytes,
which tools exist, and the fresh scratch path `tempfile` picks for each
input file.  `cjpeg` and `pngquant` return (exit-zero?, bytes written to
their separate output file, if any — a failing run may still leave
output behind); the in-place tools return (exit-zero?, rewritten bytes). -/
structure Env where
  cwd : FPath
  backupWritable : FPath → Bool
  avail : AvailableTools
  cjpeg : Nat → List Nat → Bool × Option (List Nat)
  pngquant : List Nat → Bool × Option (List Nat)
  optipng : List Nat → Bool × List Nat
  zopflipng : List Nat → Bool × List Nat
  gifsicle : List Nat → Bool × List Nat
  temp : FPath → FPath

/-- `self.stats` as initialized in `ImageCompressor.__init__`. -/
structure Stats where
  total_files : Nat
  processed : Nat
  compressed : Nat
  failed : Nat
  original_size : Nat
  compressed_size : Nat
  space_saved : Nat
deriving DecidableEq, Repr

/-- The zeroed stats dict from `__init__`. -/
def initStats : Stats := ⟨0, 0, 0, 0, 0, 0, 0⟩

/-- `self.stats['processed'] += 1` (the outer `finally` of
`compress_image`). -/
def incProcessed (s : Stats) : Stats := { s with processed := s.processed + 1 }

/-- `self.stats['failed'] += 1` (the `except` handlers of
`compress_image`). -/
def incFailed (s : Stats) : Stats := { s with failed := s.failed + 1 }

/-- Mutable run state: the filesystem and the shared stats dict. -/
structure St where
  fs : FS
  stats : Stats

/-- Which return path of `compress_image` a job took.  `failedErr` is
the `except FileNotFoundError / PermissionError / Exception` family
(increments `failed`); `backupFailed` is the early return after
`create_backup` fails; `unsupported` is the unknown-extension branch;
`notCompressed` is the `if not compressed` branch ("compression tool
unavailable / produced no output"); `notSmaller` is the
equal-or-larger branch; `committed` is the successful replacement. -/
inductive JobExit where
  | failedErr
  | backupFailed
  | unsupported
  | notCompressed
  | notSmaller
  | committed
deriving DecidableEq, Repr

/-- Result of one per-format compress method: its boolean return value,
the filesystem after it, and the external tools it invoked, in order. -/
structure ToolResult where
  ok : Bool
  fs : FS
  trace : List String

/-- Result of `compress_image` on one job: the return-path tag, the
state after the job, and the tools invoked. -/
structure JobResult where
  exit : JobExit
  st : St
  trace : List String

/-- `ImageCompressor.create_backup` (lines 71-93).  Returns immediately
when `force_no_backup_check` or backups are disabled; otherwise computes
`Path(file_path).relative_to(Path.cwd())` (any `ValueError` is caught
and reported as failure), and copies the source bytes to
`backup_dir / rel_path` (directory-creation or copy failure is caught
and reported as failure). -/
def create_backup (cfg : Config) (env : Env) (fs : FS) (file_path : FPath) :
    Bool × FS :=
  if cfg.force_no_backup_check then (true, fs)
  else if cfg.backup_enabled = false then (true, fs)
  else
    match relative_to file_path env.cwd with
    | none => (false, fs)
    | some rel =>
      let backup_file := joinP cfg.backup_dir rel
      if env.backupWritable backup_file then
        match fs file_path with
        | some content => (true, Function.update fs backup_file (some content))
        | none => (false, fs)
      else (false, fs)

/-- `ImageCompressor.compress_jpeg` (lines 95-116).  Runs
`cjpeg -outfile f'...tmp'` with `check=True`: the tool may write its
output file whether or not it exits zero; a non-zero exit raises
`CalledProcessError`, caught as `return False`.  On a zero exit, if the
`.tmp` output exists it is `os.replace`d onto the scratch file and the
method returns `True`. -/
def compress_jpeg (env : Env) (temp_path : FPath) (quality : Nat) (fs : FS) :
    ToolResult :=
  if env.avail.mozjpeg then
    match fs temp_path with
    | none => { ok := false, fs := fs, trace := ["cjpeg"] }
    | some content =>
      let r := env.cjpeg quality content
      let fs1 : FS :=
        match r.2 with
        | some out => Function.update fs (tmpOf temp_path) (some out)
        | none => fs
      if r.1 then
        match fs1 (tmpOf temp_path) with
        | some out =>
          { ok := true
            fs := Function.update (Function.update fs1 temp_path (some out))
                    (tmpOf temp_path) none
            trace := ["cjpeg"] }
        | none => { ok := false, fs := fs1, trace := ["cjpeg"] }
      else { ok := false, fs := fs1, trace := ["cjpeg"] }
  else { ok := false, fs := fs, trace := [] }

/-- The lossy stage of `compress_png` (lines 123-131): optional
`pngquant --output f'...tmp'` without `check=True` — its exit code is
inspected manually, and on a zero exit with the output file present the
output is `os.replace`d onto the scratch file, setting the `compressed`
flag.  Returns (flag, filesystem, tools invoked). -/
def pngquantStage (env : Env) (temp_path : FPath) (fs : FS) :
    Bool × FS × List String :=
  if env.avail.pngquant then
    match fs temp_path with
    | none => (false, fs, ["pngquant"])
    | some content =>
      let r := env.pngquant content
      let fsA : FS :=
        match r.2 with
        | some out => Function.update fs (tmpOf temp_path) (some out)
        | none => fs
      if r.1 then
        match fsA (tmpOf temp_path) with
        | some out =>
          (true,
           Function.update (Function.update fsA temp_path (some out))
             (tmpOf temp_path) none,
           ["pngquant"])
        | none => (false, fsA, ["pngquant"])
      else (false, fsA, ["pngquant"])
  else (false, fs, [])

/-- `ImageCompressor.compress_png` (lines 118-153).  Stage 1 is
`pngquantStage`.  Stage 2: `optipng` if available, else `zopflipng`,
each in place with `check=True`; a non-zero exit raises
`CalledProcessError`, caught by the method-wide handler as
`return False` — discarding stage 1's flag. -/
def compress_png (env : Env) (temp_path : FPath) (fs : FS) : ToolResult :=
  let s1 := pngquantStage env temp_path fs
  let c1 := s1.1
  let fs1 := s1.2.1
  let tr1 := s1.2.2
  if env.avail.optipng then
    match fs1 temp_path with
    | none => { ok := false, fs := fs1, trace := tr1 ++ ["optipng"] }
    | some content =>
      let r := env.optipng content
      if r.1 then
        { ok := true, fs := Function.update fs1 temp_path (some r.2)
          trace := tr1 ++ ["optipng"] }
      else { ok := false, fs := fs1, trace := tr1 ++ ["optipng"] }
  else if env.avail.zopflipng then
    match fs1 temp_path with
    | none => { ok := false, fs := fs1, trace := tr1 ++ ["zopflipng"] }
    | some content =>
      let r := env.zopflipng content
      if r.1 then
        { ok := true, fs := Function.update fs1 temp_path (some r.2)
          trace := tr1 ++ ["zopflipng"] }
      else { ok := false, fs := fs1, trace := tr1 ++ ["zopflipng"] }
  else { ok := c1, fs := fs1, trace := tr1 }

/-- `ImageCompressor.compress_gif` (lines 155-169): `gifsicle -O3
--batch` in place with `check=True`. -/
def compress_gif (env : Env) (temp_path : FPath) (fs : FS) : ToolResult :=
  if env.avail.gifsicle then
    match fs temp_path with
    | none => { ok := false, fs := fs, trace := ["gifsicle"] }
    | some content =>
      let r := env.gifsicle content
      if r.1 then
        { ok := true, fs := Function.update fs temp_path (some r.2)
          trace := ["gifsicle"] }
      else { ok := false, fs := fs, trace := ["gifsicle"] }
  else { ok := false, fs := fs, trace := [] }

/-- The inner `finally` of `compress_image` (lines 225-228):
`if os.path.exists(temp_path): os.unlink(temp_path)`. -/
def cleanup (fs : FS) (p : FPath) : FS :=
  if (fs p).isSome then Function.update fs p none else fs

/-- The tail of `compress_image` after the per-format dispatch (lines
202-228): the `if not compressed` rejection, the size comparison, the
`shutil.copy2(temp_path, input_path)` commit, the stats updates of the
commit branch, the inner `finally` deleting the scratch file, and the
outer `finally` incrementing `processed`.  A missing scratch file at
`os.path.getsize(temp_path)` raises, landing in the generic handler
(`failed += 1`). -/
def finishJob (input_path temp_path : FPath) (original_size : Nat)
    (tr : ToolResult) (stats : Stats) : JobResult :=
  if tr.ok then
    match tr.fs temp_path with
    | some newc =>
      let compressed_size := newc.length
      if compressed_size < original_size then
        { exit := JobExit.committed
          st :=
            { fs := cleanup (Function.update tr.fs input_path (some newc)) temp_path
              stats := incProcessed
                { stats with
                  compressed := stats.compressed + 1
                  original_size := stats.original_size + original_size
                  compressed_size := stats.compressed_size + compressed_size
                  space_saved := stats.space_saved + (original_size - compressed_size) } }
          trace := tr.trace }
      else
        { exit := JobExit.notSmaller
          st := { fs := cleanup tr.fs temp_path, stats := incProcessed stats }
          trace := tr.trace }
    | none =>
      { exit := JobExit.failedErr
        st := { fs := cleanup tr.fs temp_path
                stats := incProcessed (incFailed stats) }
        trace := tr.trace }
  else
    { exit := JobExit.notCompressed
      st := { fs := cleanup tr.fs temp_path, stats := incProcessed stats }
      trace := tr.trace }

/-- `ImageCompressor.compress_image` (lines 171-243).  Reads the
extension and size (a missing source raises `FileNotFoundError`,
incrementing `failed`), runs the backup gate (failure returns before any
scratch copy or tool call), creates the scratch copy, dispatches on the
extension, and finishes with the commit/cleanup protocol.  The outer
`finally` increments `processed` on every path. -/
def compress_image (cfg : Config) (env : Env) (input_path : FPath)
    (quality : Nat) (st : St) : JobResult :=
  match st.fs input_path with
  | none =>
    { exit := JobExit.failedErr
      st := { st with stats := incProcessed (incFailed st.stats) }
      trace := [] }
  | some orig =>
    let file_ext := suffixLower input_path
    let original_size := orig.length
    let b := create_backup cfg env st.fs input_path
    if b.1 = false then
      { exit := JobExit.backupFailed
        st := { fs := b.2, stats := incProcessed st.stats }
        trace := [] }
    else
      let temp_path := env.temp input_path
      let fs2 : FS := Function.update b.2 temp_path (some orig)
      if file_ext = ".jpg" ∨ file_ext = ".jpeg" then
        finishJob input_path temp_path original_size
          (compress_jpeg env temp_path quality fs2) st.stats
      else if file_ext = ".png" then
        finishJob input_path temp_path original_size
          (compress_png env temp_path fs2) st.stats
      else if file_ext = ".gif" then
        finishJob input_path temp_path original_size
          (compress_gif env temp_path fs2) st.stats
      else
        { exit := JobExit.unsupported
          st := { fs := cleanup fs2 temp_path, stats := incProcessed st.stats }
          trace := [] }

/-- Sequential application of `compress_image` to each file of the job
list, collecting each job's return path; the state threads through in
order. -/
def runJobs (cfg : Config) (env : Env) (quality : Nat) :
    List FPath → St → List JobExit × St
  | [], st => ([], st)
  | f :: rest, st =>
    let r := compress_image cfg env f quality st
    let t := runJobs cfg env quality rest r.st
    (r.exit :: t.1, t.2)

/-- The run state at the top of `process_files`: the given filesystem
and the zeroed stats with `total_files` set to `len(files)`. -/
def initRun (files : List FPath) (fs0 : FS) : St :=
  ⟨fs0, { initStats with total_files := files.length }⟩

/-- `ImageCompressor.process_files` (lines 271-291).  Both the
`max_workers == 1` loop and the `ThreadPoolExecutor` branch run
`compress_image` exactly once per file; at job granularity the model
serializes the jobs in list order (the sub-increment interleaving of the
shared stats dict is modelled separately by `StatsRace`). -/
def process_files (cfg : Config) (env : Env) (files : List FPath)
    (quality : Nat) (max_workers : Nat) (fs0 : FS) : St :=
  if max_workers = 1 then (runJobs cfg env quality files (initRun files fs0)).2
  else (runJobs cfg env quality files (initRun files fs0)).2

/-- Jobs whose return path was neither the commit nor one of the
`except` handlers: the "skipped" family (backup failure, unsupported
format, tool unavailable or produced no output, not smaller). -/
def countSkipped (es : List JobExit) : Nat :=
  es.countP fun e =>
    !(e == JobExit.committed) && !(e == JobExit.failedErr)

namespace StatsRace

/-!
A refinement of the shared-stats increments of `compress_image` (lines
211-216 and 243) under the `ThreadPoolExecutor` of `process_files`
(lines 281-291).  The source guards `self.stats[...] += 1` with no lock;
CPython executes the augmented assignment as a read of the current
value, an add, and a store, and the interpreter may switch threads
between those steps.  Each worker therefore passes through the phases
below while performing its single increment of the shared counter. -/

/-- A worker's progress through its one `self.stats['processed'] += 1`:
not yet started, holding the value it read, or finished (store done). -/
inductive Phase where
  | ready
  | loaded (v : Nat)
  | finished
deriving DecidableEq, Repr

/-- One interpreter step of a worker: the read and the store of the
augmented assignment are separate steps. -/
def stepPhase (shared : Nat) (p : Phase) : Nat × Phase :=
  match p with
  | Phase.ready => (shared, Phase.loaded shared)
  | Phase.loaded v => (v + 1, Phase.finished)
  | Phase.finished => (shared, Phase.finished)

/-- Run a thread schedule: each entry names the worker that executes its
next step; out-of-range entries do nothing. -/
def runSched (sched : List Nat) (shared : Nat) (ps : List Phase) :
    Nat × List Phase :=
  match sched with
  | [] => (shared, ps)
  | w :: rest =>
    match ps[w]? with
    | none => runSched rest shared ps
    | some p =>
      let s := stepPhase shared p
      runSched rest s.1 (ps.set w s.2)

end StatsRace

/-! ### Helper lemmas -/

lemma cleanup_self (fs : FS) (p : FPath) : cleanup fs p p = none := by
  unfold cleanup
  split
  · exact Function.update_same p none fs
  · next h => exact Option.not_isSome_iff_eq_none.mp h

lemma cleanup_ne (fs : FS) (p q : FPath) (h : q ≠ p) : cleanup fs p q = fs q := by
  unfold cleanup
  split
  · exact Function.update_noteq h none fs
  · rfl

lemma joinP_ne_of_abs (bd : FPath) (r : List String) (q : FPath)
    (h : bd.absolute ≠ q.absolute) : joinP bd r ≠ q := by
  intro he
  exact h (by rw [← he]; rfl)

/-- Case analysis of `create_backup`: either it leaves the filesystem
alone, or it succeeds having copied the source bytes to the mirror. -/
lemma create_backup_cases (cfg : Config) (env : Env) (fs : FS) (p : FPath) :
    (create_backup cfg env fs p).2 = fs ∨
    ∃ rel content, relative_to p env.cwd = some rel ∧ fs p = some content ∧
      create_backup cfg env fs p
        = (true, Function.update fs (joinP cfg.backup_dir rel) (some content)) := by
  unfold create_backup
  split
  · exact Or.inl rfl
  · split
    · exact Or.inl rfl
    · split
      · exact Or.inl rfl
      · next rel hrel =>
        by_cases hw : env.backupWritable (joinP cfg.backup_dir rel) = true
        · cases hc : fs p with
          | none => exact Or.inl (by simp [hw, hc])
          | some content => exact Or.inr ⟨rel, content, hrel, rfl, by simp [hw]⟩
        · exact Or.inl (by simp [hw])

lemma create_backup_false (cfg : Config) (env : Env) (fs : FS) (p : FPath)
    (h : (create_backup cfg env fs p).1 = false) :
    (create_backup cfg env fs p).2 = fs := by
  rcases create_backup_cases cfg env fs p with h1 | ⟨rel, content, _, _, h1⟩
  · exact h1
  · rw [h1] at h
    simp at h

lemma create_backup_apply_ne (cfg : Config) (env : Env) (fs : FS) (p q : FPath)
    (h : ∀ r, joinP cfg.backup_dir r ≠ q) :
    (create_backup cfg env fs p).2 q = fs q := by
  rcases create_backup_cases cfg env fs p with h1 | ⟨rel, content, _, _, h1⟩
  · rw [h1]
  · have h2 : (create_backup cfg env fs p).2
        = Function.update fs (joinP cfg.backup_dir rel) (some content) := by
      rw [h1]
    rw [h2]
    exact Function.update_noteq (fun he => (h rel) he.symm) _ fs

lemma create_backup_success (cfg : Config) (env : Env) (fs : FS) (p : FPath)
    (rel : List String) (content : List Nat)
    (hfo : cfg.force_no_backup_check = false)
    (hen : cfg.backup_enabled = true)
    (hrel : relative_to p env.cwd = some rel)
    (hwr : env.backupWritable (joinP cfg.backup_dir rel) = true)
    (hc : fs p = some content) :
    create_backup cfg env fs p
      = (true, Function.update fs (joinP cfg.backup_dir rel) (some content)) := by
  unfold create_backup
  simp [hfo, hen, hrel, hwr, hc]

lemma compress_jpeg_frame (env : Env) (t : FPath) (q : Nat) (fs : FS) (p : FPath)
    (h1 : p ≠ t) (h2 : p ≠ tmpOf t) :
    (compress_jpeg env t q fs).fs p = fs p := by
  unfold compress_jpeg
  split
  · split
    · rfl
    · next content heq =>
      dsimp only
      rcases hr : (env.cjpeg q content).2 with _ | out <;>
        simp only [hr] <;>
        split <;>
        first
          | rfl
          | (split <;> simp [Function.update_apply, h1, h2])
          | simp [Function.update_apply, h1, h2]
  · rfl

lemma pngquantStage_frame (env : Env) (t : FPath) (fs : FS) (p : FPath)
    (h1 : p ≠ t) (h2 : p ≠ tmpOf t) :
    (pngquantStage env t fs).2.1 p = fs p := by
  unfold pngquantStage
  split
  · split
    · rfl
    · next content heq =>
      dsimp only
      rcases hr : (env.pngquant content).2 with _ | out <;>
        simp only [hr] <;>
        split <;>
        first
          | rfl
          | (split <;> simp [Function.update_apply, h1, h2])
          | simp [Function.update_apply, h1, h2]
  · rfl

lemma compress_png_frame (env : Env) (t : FPath) (fs : FS) (p : FPath)
    (h1 : p ≠ t) (h2 : p ≠ tmpOf t) :
    (compress_png env t fs).fs p = fs p := by
  have hs := pngquantStage_frame env t fs p h1 h2
  unfold compress_png
  dsimp only
  split
  · split
    · exact hs
    · split
      · simp [Function.update_apply, h1, hs]
      · exact hs
  · split
    · split
      · exact hs
      · split
        · simp [Function.update_apply, h1, hs]
        · exact hs
    · exact hs

lemma compress_gif_frame (env : Env) (t : FPath) (fs : FS) (p : FPath)
    (h1 : p ≠ t) :
    (compress_gif env t fs).fs p = fs p := by
  unfold compress_gif
  split
  · split
    · rfl
    · dsimp only
      split
      · simp [Function.update_apply, h1]
      · rfl
  · rfl

lemma finishJob_temp_none (i t : FPath) (osz : Nat) (tr : ToolResult) (s : Stats) :
    (finishJob i t osz tr s).st.fs t = none := by
  unfold finishJob
  dsimp only
  split
  · split
    · split
      · exact cleanup_self _ t
      · exact cleanup_self _ t
    · exact cleanup_self _ t
  · exact cleanup_self _ t

lemma finishJob_stats (i t : FPath) (osz : Nat) (tr : ToolResult) (s : Stats) :
    (finishJob i t osz tr s).st.stats.processed = s.processed + 1 ∧
    (finishJob i t osz tr s).st.stats.compressed
      = s.compressed
        + (if (finishJob i t osz tr s).exit = JobExit.committed then 1 else 0) ∧
    (finishJob i t osz tr s).st.stats.failed
      = s.failed
        + (if (finishJob i t osz tr s).exit = JobExit.failedErr then 1 else 0) ∧
    (finishJob i t osz tr s).st.stats.total_files = s.total_files := by
  unfold finishJob
  dsimp only
  split
  · split
    · split <;> simp [incProcessed, incFailed]
    · simp [incProcessed, incFailed]
  · simp [incProcessed, incFailed]

lemma compress_image_stats (cfg : Config) (env : Env) (i : FPath) (q : Nat)
    (st : St) :
    (compress_image cfg env i q st).st.stats.processed
      = st.stats.processed + 1 ∧
    (compress_image cfg env i q st).st.stats.compressed
      = st.stats.compressed
        + (if (compress_image cfg env i q st).exit = JobExit.committed
           then 1 else 0) ∧
    (compress_image cfg env i q st).st.stats.failed
      = st.stats.failed
        + (if (compress_image cfg env i q st).exit = JobExit.failedErr
           then 1 else 0) ∧
    (compress_image cfg env i q st).st.stats.total_files
      = st.stats.total_files := by
  unfold compress_image
  split
  · simp [incProcessed, incFailed]
  · dsimp only
    split
    · simp [incProcessed]
    · split
      · exact finishJob_stats _ _ _ _ _
      · split
        · exact finishJob_stats _ _ _ _ _
        · split
          · exact finishJob_stats _ _ _ _ _
          · simp [incProcessed]

lemma process_files_eq (cfg : Config) (env : Env) (files : List FPath)
    (q w : Nat) (fs0 : FS) :
    process_files cfg env files q w fs0
      = (runJobs cfg env q files (initRun files fs0)).2 := by
  unfold process_files
  split <;> rfl

lemma runJobs_stats (cfg : Config) (env : Env) (q : Nat) (files : List FPath) :
    ∀ st : St,
      (runJobs cfg env q files st).1.length = files.length ∧
      (runJobs cfg env q files st).2.stats.processed
        = st.stats.processed + files.length ∧
      (runJobs cfg env q files st).2.stats.compressed
        = st.stats.compressed
          + (runJobs cfg env q files st).1.countP
              (fun e => e == JobExit.committed) ∧
      (runJobs cfg env q files st).2.stats.failed
        = st.stats.failed
          + (runJobs cfg env q files st).1.countP
              (fun e => e == JobExit.failedErr) := by
  induction files with
  | nil => intro st; simp [runJobs]
  | cons f rest ih =>
    intro st
    obtain ⟨hc1, hc2, hc3, -⟩ := compress_image_stats cfg env f q st
    obtain ⟨hr1, hr2, hr3, hr4⟩ := ih (compress_image cfg env f q st).st
    unfold runJobs
    dsimp only
    simp only [List.length_cons, List.countP_cons]
    refine ⟨by rw [hr1], by rw [hr2, hc1]; omega, ?_, ?_⟩
    · rw [hr3, hc2]
      by_cases he : (compress_image cfg env f q st).exit = JobExit.committed <;>
        simp [he, beq_iff_eq] <;> omega
    · rw [hr4, hc3]
      by_cases he : (compress_image cfg env f q st).exit = JobExit.failedErr <;>
        simp [he, beq_iff_eq] <;> omega

lemma countSplit (es : List JobExit) :
    es.countP (fun e => e == JobExit.committed) + countSkipped es
      + es.countP (fun e => e == JobExit.failedErr) = es.length := by
  induction es with
  | nil => rfl
  | cons e es ih =>
    unfold countSkipped at ih ⊢
    rw [List.countP_cons, List.countP_cons, List.countP_cons, List.length_cons]
    cases e <;> simp [beq_iff_eq] <;> omega

lemma finishJob_spec (i t : FPath) (osz : Nat) (tr : ToolResult) (s : Stats)
    (orig : List Nat) (hit : i ≠ t) (hfsi : tr.fs i = some orig) :
    ((finishJob i t osz tr s).exit = JobExit.committed →
      ∃ newc : List Nat, (finishJob i t osz tr s).st.fs i = some newc ∧
        newc.length < osz ∧
        (finishJob i t osz tr s).st.stats.compressed = s.compressed + 1) ∧
    ((finishJob i t osz tr s).exit ≠ JobExit.committed →
      (finishJob i t osz tr s).st.fs i = some orig ∧
      (finishJob i t osz tr s).st.stats.compressed = s.compressed) := by
  unfold finishJob
  dsimp only
  split
  · split
    · next newc heq =>
      split
      · next hlt =>
        refine ⟨fun _ => ⟨newc, ?_, hlt, by simp [incProcessed]⟩,
                fun hne => absurd rfl hne⟩
        show cleanup (Function.update tr.fs i (some newc)) t i = some newc
        rw [cleanup_ne _ _ _ hit, Function.update_same]
      · next hge =>
        refine ⟨fun hco => by simp at hco,
                fun _ => ⟨?_, by simp [incProcessed]⟩⟩
        show cleanup tr.fs t i = some orig
        rw [cleanup_ne _ _ _ hit]
        exact hfsi
    · next heq =>
      refine ⟨fun hco => by simp at hco,
              fun _ => ⟨?_, by simp [incProcessed, incFailed]⟩⟩
      show cleanup tr.fs t i = some orig
      rw [cleanup_ne _ _ _ hit]
      exact hfsi
  · refine ⟨fun hco => by simp at hco,
            fun _ => ⟨?_, by simp [incProcessed]⟩⟩
    show cleanup tr.fs t i = some orig
    rw [cleanup_ne _ _ _ hit]
    exact hfsi

/-! ### Concrete fixtures used by witnesses and counterexamples -/

/-- The default backup directory `.image_backup`, a relative path. -/
def wDir : FPath := ⟨false, [".image_backup"]⟩

/-- A concrete absolute working directory. -/
def wCwd : FPath := ⟨true, ["work"]⟩

/-- Backups enabled, default backup dir, override not set. -/
def cfgW : Config := ⟨true, wDir, false⟩

/-- Backups nominally enabled but `--force-no-backup-check` set. -/
def cfgForce : Config := ⟨true, wDir, true⟩

/-- A deterministic fresh scratch location for each input. -/
def tempFun : FPath → FPath := fun p => ⟨true, "tmp" :: p.components⟩

/-- A JPEG input file under the working directory. -/
def jpgW : FPath := ⟨true, ["work", "photo.jpg"]⟩

/-- A PNG input file under the working directory. -/
def pngW : FPath := ⟨true, ["work", "pic.png"]⟩

/-- A BMP input file under the working directory. -/
def bmpW : FPath := ⟨true, ["work", "icon.bmp"]⟩

/-- A second BMP input file. -/
def bmpW2 : FPath := ⟨true, ["work", "logo.bmp"]⟩

/-- No external tool installed. -/
def noTools : AvailableTools := ⟨false, false, false, false, false, false⟩

/-- Host with only mozjpeg, whose `cjpeg` succeeds and writes a
one-byte output. -/
def envW1 : Env :=
  { cwd := wCwd
    backupWritable := fun _ => true
    avail := ⟨true, false, false, false, false, false⟩
    cjpeg := fun _ _ => (true, some [5])
    pngquant := fun _ => (false, none)
    optipng := fun _ => (false, [])
    zopflipng := fun _ => (false, [])
    gifsicle := fun _ => (false, [])
    temp := tempFun }

/-- Filesystem holding only the four-byte `photo.jpg`. -/
def fsW1 : FS := fun p => if p = jpgW then some [1, 2, 3, 4] else none

/-- Initial state for the `photo.jpg` runs. -/
def stW1 : St := ⟨fsW1, initStats⟩

/-! ### C1 -/

/-- The filesystem as it stands when `compress_image` reaches the
per-format dispatch on a job whose source holds `orig`: the backup gate
has run on the job's state and the original bytes have been copied to
the fresh scratch path — the local `fs2` of `compress_image`
(`tempfile.NamedTemporaryFile` plus `shutil.copy2(input_path,
temp_path)`, lines 183-188). -/
def scratchInit (cfg : Config) (env : Env) (i : FPath) (st : St)
    (orig : List Nat) : FS :=
  Function.update (create_backup cfg env st.fs i).2 (env.temp i) (some orig)

/-- Forward direction of the commit protocol (lines 206-223): once the
format strategy has reported success and the scratch file holds `newc`,
a strictly smaller `newc` is committed onto the original and a
not-smaller `newc` takes the equal-or-larger Skip return path. -/
lemma finishJob_forward (i t : FPath) (osz : Nat) (tr : ToolResult)
    (s : Stats) (newc : List Nat) (hit : i ≠ t)
    (hok : tr.ok = true) (hsc : tr.fs t = some newc) :
    (newc.length < osz →
      (finishJob i t osz tr s).exit = JobExit.committed ∧
      (finishJob i t osz tr s).st.fs i = some newc) ∧
    (osz ≤ newc.length →
      (finishJob i t osz tr s).exit = JobExit.notSmaller) := by
  unfold finishJob
  rw [hok, if_pos rfl, hsc]
  dsimp only
  constructor
  · intro hlt
    rw [if_pos hlt]
    refine ⟨rfl, ?_⟩
    show cleanup (Function.update tr.fs i (some newc)) t i = some newc
    rw [cleanup_ne _ _ _ hit, Function.update_same]
  · intro hge
    rw [if_neg (by omega)]

/-- C1: the original file is replaced if and only if the compressed
scratch copy is strictly smaller.  Backward direction: if the job
commits, the original now holds bytes strictly shorter than before and
the `compressed` counter is incremented; on every other return path the
original's bytes are unchanged and the counter is not incremented; and
on the equal-or-larger path the scratch copy has been discarded.
Forward direction: when the backup gate passed and the job's format
strategy (for the job's own extension) reported success leaving scratch
bytes `newc`, a strictly smaller `newc` forces the commit — the scratch
bytes are copied over the original and the job counts as Compressed —
and an equal-or-larger `newc` forces the not-smaller Skip return path. -/
theorem c1_strict_size_gate (cfg : Config) (env : Env) (i : FPath) (q : Nat)
    (st : St) (orig : List Nat)
    (hin : st.fs i = some orig)
    (hit : i ≠ env.temp i)
    (hit2 : i ≠ tmpOf (env.temp i))
    (hbd : cfg.backup_dir.absolute = false)
    (hia : i.absolute = true) :
    ((compress_image cfg env i q st).exit = JobExit.committed →
      ∃ newc : List Nat, (compress_image cfg env i q st).st.fs i = some newc ∧
        newc.length < orig.length ∧
        (compress_image cfg env i q st).st.stats.compressed
          = st.stats.compressed + 1) ∧
    ((compress_image cfg env i q st).exit ≠ JobExit.committed →
      (compress_image cfg env i q st).st.fs i = some orig ∧
      (compress_image cfg env i q st).st.stats.compressed
        = st.stats.compressed) ∧
    ((compress_image cfg env i q st).exit = JobExit.notSmaller →
      (compress_image cfg env i q st).st.fs (env.temp i) = none) ∧
    (∀ newc : List Nat,
      (create_backup cfg env st.fs i).1 = true →
      ((suffixLower i = ".jpg" ∨ suffixLower i = ".jpeg") →
        (compress_jpeg env (env.temp i) q (scratchInit cfg env i st orig)).ok
            = true →
        (compress_jpeg env (env.temp i) q (scratchInit cfg env i st orig)).fs
            (env.temp i) = some newc →
        (newc.length < orig.length →
          (compress_image cfg env i q st).exit = JobExit.committed ∧
          (compress_image cfg env i q st).st.fs i = some newc) ∧
        (orig.length ≤ newc.length →
          (compress_image cfg env i q st).exit = JobExit.notSmaller)) ∧
      (suffixLower i = ".png" →
        (compress_png env (env.temp i) (scratchInit cfg env i st orig)).ok
            = true →
        (compress_png env (env.temp i) (scratchInit cfg env i st orig)).fs
            (env.temp i) = some newc →
        (newc.length < orig.length →
          (compress_image cfg env i q st).exit = JobExit.committed ∧
          (compress_image cfg env i q st).st.fs i = some newc) ∧
        (orig.length ≤ newc.length →
          (compress_image cfg env i q st).exit = JobExit.notSmaller)) ∧
      (suffixLower i = ".gif" →
        (compress_gif env (env.temp i) (scratchInit cfg env i st orig)).ok
            = true →
        (compress_gif env (env.temp i) (scratchInit cfg env i st orig)).fs
            (env.temp i) = some newc →
        (newc.length < orig.length →
          (compress_image cfg env i q st).exit = JobExit.committed ∧
          (compress_image cfg env i q st).st.fs i = some newc) ∧
        (orig.length ≤ newc.length →
          (compress_image cfg env i q st).exit = JobExit.notSmaller))) := by
  have hb : ∀ r, joinP cfg.backup_dir r ≠ i := fun r =>
    joinP_ne_of_abs cfg.backup_dir r i (by simp [hbd, hia])
  unfold compress_image scratchInit
  rw [hin]
  dsimp only
  by_cases hbk : (create_backup cfg env st.fs i).1 = false
  · rw [if_pos hbk]
    refine ⟨fun hco => by simp at hco,
            fun _ => ⟨?_, by simp [incProcessed]⟩,
            fun hns => by simp at hns,
            fun newc hbk2 => absurd hbk (by simp [hbk2])⟩
    show (create_backup cfg env st.fs i).2 i = some orig
    rw [create_backup_false _ _ _ _ hbk]
    exact hin
  · rw [if_neg hbk]
    have hfs2 : Function.update (create_backup cfg env st.fs i).2 (env.temp i)
        (some orig) i = some orig := by
      rw [Function.update_noteq hit, create_backup_apply_ne _ _ _ _ _ hb]
      exact hin
    split_ifs with hj hp hg
    · have hfr : (compress_jpeg env (env.temp i) q
          (Function.update (create_backup cfg env st.fs i).2 (env.temp i)
            (some orig))).fs i = some orig := by
        rw [compress_jpeg_frame env _ q _ i hit hit2]
        exact hfs2
      have hsp := finishJob_spec i (env.temp i) orig.length _ st.stats orig hit hfr
      refine ⟨hsp.1, hsp.2, fun _ => finishJob_temp_none _ _ _ _ _,
              fun newc _ => ⟨fun _ hok hsc => ?_, fun hpng _ _ => ?_,
                             fun hgif _ _ => ?_⟩⟩
      · exact finishJob_forward i (env.temp i) orig.length _ st.stats newc
          hit hok hsc
      · rcases hj with h | h <;> rw [h] at hpng <;> exact absurd hpng (by decide)
      · rcases hj with h | h <;> rw [h] at hgif <;> exact absurd hgif (by decide)
    · have hfr : (compress_png env (env.temp i)
          (Function.update (create_backup cfg env st.fs i).2 (env.temp i)
            (some orig))).fs i = some orig := by
        rw [compress_png_frame env _ _ i hit hit2]
        exact hfs2
      have hsp := finishJob_spec i (env.temp i) orig.length _ st.stats orig hit hfr
      refine ⟨hsp.1, hsp.2, fun _ => finishJob_temp_none _ _ _ _ _,
              fun newc _ => ⟨fun hjj _ _ => absurd hjj hj,
                             fun _ hok hsc => ?_, fun hgif _ _ => ?_⟩⟩
      · exact finishJob_forward i (env.temp i) orig.length _ st.stats newc
          hit hok hsc
      · rw [hp] at hgif
        exact absurd hgif (by decide)
    · have hfr : (compress_gif env (env.temp i)
          (Function.update (create_backup cfg env st.fs i).2 (env.temp i)
            (some orig))).fs i = some orig := by
        rw [compress_gif_frame env _ _ i hit]
        exact hfs2
      have hsp := finishJob_spec i (env.temp i) orig.length _ st.stats orig hit hfr
      refine ⟨hsp.1, hsp.2, fun _ => finishJob_temp_none _ _ _ _ _,
              fun newc _ => ⟨fun hjj _ _ => absurd hjj hj,
                             fun hpng _ _ => absurd hpng hp,
                             fun _ hok hsc => ?_⟩⟩
      exact finishJob_forward i (env.temp i) orig.length _ st.stats newc
        hit hok hsc
    · refine ⟨fun hco => by simp at hco,
              fun _ => ⟨?_, by simp [incProcessed]⟩,
              fun hns => by simp at hns,
              fun newc _ => ⟨fun hjj _ _ => absurd hjj hj,
                             fun hpng _ _ => absurd hpng hp,
                             fun hgif _ _ => absurd hgif hg⟩⟩
      show cleanup (Function.update (create_backup cfg env st.fs i).2
        (env.temp i) (some orig)) (env.temp i) i = some orig
      rw [cleanup_ne _ _ _ hit]
      exact hfs2

/-- C1 witness: on the concrete `photo.jpg` run the backup gate passes
and cjpeg succeeds, leaving one byte of scratch; the forward direction
of the theorem forces the commit with the scratch bytes written over
the original, and the backward direction returns the strictly smaller
replacement and the counter bump. -/
theorem c1_strict_size_gate_witness :
    ((compress_image cfgW envW1 jpgW 85 stW1).exit = JobExit.committed ∧
      (compress_image cfgW envW1 jpgW 85 stW1).st.fs jpgW = some [5]) ∧
    ∃ newc : List Nat,
      (compress_image cfgW envW1 jpgW 85 stW1).st.fs jpgW = some newc ∧
      newc.length < ([1, 2, 3, 4] : List Nat).length ∧
      (compress_image cfgW envW1 jpgW 85 stW1).st.stats.compressed
        = stW1.stats.compressed + 1 :=
  ⟨(((c1_strict_size_gate cfgW envW1 jpgW 85 stW1 [1, 2, 3, 4] (by decide)
        (by decide) (by decide) rfl rfl).2.2.2 [5] (by decide)).1
      (Or.inl (by decide)) (by decide) (by decide)).1 (by decide),
   (c1_strict_size_gate cfgW envW1 jpgW 85 stW1 [1, 2, 3, 4] (by decide)
      (by decide) (by decide) rfl rfl).1 (by decide)⟩

/-- Shared characterization: when the source exists and the backup gate
fails, `compress_image` returns on the backup-failure path leaving the
filesystem untouched, invoking no tool, and bumping only `processed`. -/
lemma compress_image_backupFailed (cfg : Config) (env : Env) (i : FPath)
    (q : Nat) (st : St) (orig : List Nat)
    (hin : st.fs i = some orig)
    (hfail : (create_backup cfg env st.fs i).1 = false) :
    compress_image cfg env i q st
      = ⟨JobExit.backupFailed, ⟨st.fs, incProcessed st.stats⟩, []⟩ := by
  unfold compress_image
  rw [hin]
  dsimp only
  rw [if_pos hfail, create_backup_false _ _ _ _ hfail]

/-! ### C2 -/

/-- C2: with backups enabled and the override not set, a job whose
backup creation fails terminates on the backup-failure path with the
filesystem completely unchanged (original bytes intact, no scratch copy
anywhere), no external tool invoked, and only `processed` bumped. -/
theorem c2_backup_failure_blocks_mutation (cfg : Config) (env : Env)
    (i : FPath) (q : Nat) (st : St) (orig : List Nat)
    (hen : cfg.backup_enabled = true)
    (hfo : cfg.force_no_backup_check = false)
    (hin : st.fs i = some orig)
    (hfail : (create_backup cfg env st.fs i).1 = false) :
    (compress_image cfg env i q st).exit = JobExit.backupFailed ∧
    (compress_image cfg env i q st).st.fs = st.fs ∧
    (compress_image cfg env i q st).trace = [] ∧
    (compress_image cfg env i q st).st.stats = incProcessed st.stats := by
  rw [compress_image_backupFailed cfg env i q st orig hin hfail]
  exact ⟨rfl, rfl, rfl, rfl⟩

/-- A relative JPEG path, as produced by `find_image_files` when the
scanned directory argument is relative. -/
def relJpg : FPath := ⟨false, ["photos", "a.jpg"]⟩

/-- Filesystem holding only the relative `photos/a.jpg`. -/
def fsRel : FS := fun p => if p = relJpg then some [1, 2] else none

/-- Initial state for the relative-path runs. -/
def stRel : St := ⟨fsRel, initStats⟩

/-- C2 witness: for the relative input the backup gate fails
(`relative_to` against the absolute cwd raises), and the job ends with
everything unchanged. -/
theorem c2_backup_failure_blocks_mutation_witness :
    (compress_image cfgW envW1 relJpg 85 stRel).exit = JobExit.backupFailed ∧
    (compress_image cfgW envW1 relJpg 85 stRel).st.fs = stRel.fs ∧
    (compress_image cfgW envW1 relJpg 85 stRel).trace = [] ∧
    (compress_image cfgW envW1 relJpg 85 stRel).st.stats
      = incProcessed stRel.stats :=
  c2_backup_failure_blocks_mutation cfgW envW1 relJpg 85 stRel [1, 2]
    rfl rfl (by decide) (by decide)

/-! ### C10 -/

/-- C10: with backups enabled and no override, `create_backup` fails for
every source path that cannot be expressed relative to the current
working directory — in particular for every relative source path, since
`relative_to` against the absolute cwd is purely syntactic — and such a
job is skipped on the backup-failure path with no mutation and no tool
invocation. -/
theorem c10_not_under_cwd_backup_fails (cfg : Config) (env : Env) (i : FPath)
    (q : Nat) (st : St) (orig : List Nat)
    (hen : cfg.backup_enabled = true)
    (hfo : cfg.force_no_backup_check = false)
    (hin : st.fs i = some orig)
    (hnot : relative_to i env.cwd = none) :
    (create_backup cfg env st.fs i).1 = false ∧
    (compress_image cfg env i q st).exit = JobExit.backupFailed ∧
    (compress_image cfg env i q st).st.fs = st.fs ∧
    (compress_image cfg env i q st).trace = [] ∧
    (∀ j : FPath, env.cwd.absolute = true → j.absolute = false →
      relative_to j env.cwd = none) := by
  have hf : (create_backup cfg env st.fs i).1 = false := by
    unfold create_backup
    simp [hen, hfo, hnot]
  rw [compress_image_backupFailed cfg env i q st orig hin hf]
  refine ⟨hf, rfl, rfl, rfl, fun j hcwd hj => ?_⟩
  unfold relative_to
  rw [hj, hcwd]
  simp

/-- C10 witness: the relative `photos/a.jpg` cannot be expressed
relative to the absolute cwd, its backup fails, and the job is skipped
without mutation. -/
theorem c10_not_under_cwd_backup_fails_witness :
    (create_backup cfgW envW1 stRel.fs relJpg).1 = false ∧
    (compress_image cfgW envW1 relJpg 85 stRel).exit = JobExit.backupFailed ∧
    (compress_image cfgW envW1 relJpg 85 stRel).st.fs = stRel.fs ∧
    (compress_image cfgW envW1 relJpg 85 stRel).trace = [] ∧
    (∀ j : FPath, envW1.cwd.absolute = true → j.absolute = false →
      relative_to j envW1.cwd = none) :=
  c10_not_under_cwd_backup_fails cfgW envW1 relJpg 85 stRel [1, 2]
    rfl rfl (by decide) (by decide)

/-! ### C5 -/

/-- Host with only mozjpeg, whose `cjpeg` exits non-zero after having
written its `.tmp` output file. -/
def envC5 : Env :=
  { cwd := wCwd
    backupWritable := fun _ => true
    avail := ⟨true, false, false, false, false, false⟩
    cjpeg := fun _ _ => (false, some [7, 7, 7])
    pngquant := fun _ => (false, none)
    optipng := fun _ => (false, [])
    zopflipng := fun _ => (false, [])
    gifsicle := fun _ => (false, [])
    temp := tempFun }

/-- C5 counterexample: when `cjpeg` fails after writing its output
file, the job ends on the rejection path with the scratch copy deleted,
but the intermediate `f'...tmp'` tool output — created by this job and
absent before it — survives the job: the inner `finally` of
`compress_image` unlinks only `temp_path`. -/
theorem c5_counterexample_tmp_survives :
    (compress_image cfgForce envC5 jpgW 85 stW1).exit
      = JobExit.notCompressed ∧
    (compress_image cfgForce envC5 jpgW 85 stW1).st.fs (tempFun jpgW)
      = none ∧
    (compress_image cfgForce envC5 jpgW 85 stW1).st.fs (tmpOf (tempFun jpgW))
      = some [7, 7, 7] ∧
    stW1.fs (tmpOf (tempFun jpgW)) = none ∧
    tmpOf (tempFun jpgW) ≠ jpgW := by decide

/-- C5 amended: the per-job scratch copy (`temp_path`) is deleted on
every return path of `compress_image` — only the intermediate `.tmp`
tool outputs can survive, as the counterexample shows. -/
theorem c5_amended_scratch_always_deleted (cfg : Config) (env : Env)
    (i : FPath) (q : Nat) (st : St)
    (h0 : st.fs (env.temp i) = none) :
    (compress_image cfg env i q st).st.fs (env.temp i) = none := by
  unfold compress_image
  split
  · exact h0
  · dsimp only
    split
    · next hfail =>
      show (create_backup cfg env st.fs i).2 (env.temp i) = none
      rw [create_backup_false _ _ _ _ hfail]
      exact h0
    · split_ifs with hj hp hg
      · exact finishJob_temp_none _ _ _ _ _
      · exact finishJob_temp_none _ _ _ _ _
      · exact finishJob_temp_none _ _ _ _ _
      · exact cleanup_self _ _

/-- C5 amended witness: the scratch copy of the concrete committed run
is gone afterwards. -/
theorem c5_amended_scratch_always_deleted_witness :
    (compress_image cfgW envW1 jpgW 85 stW1).st.fs (envW1.temp jpgW) = none :=
  c5_amended_scratch_always_deleted cfgW envW1 jpgW 85 stW1 (by decide)

/-! ### C7 -/

/-- C7: a job whose extension is none of `.jpg`/`.jpeg`/`.png`/`.gif`
(BMP, WEBP, TIFF, ...) always ends on the format-not-handled return
path: no external tool is invoked, the original bytes are unchanged,
and the `failed` counter is unchanged. -/
theorem c7_unsupported_format_skipped (cfg : Config) (env : Env) (i : FPath)
    (q : Nat) (st : St) (orig : List Nat)
    (hin : st.fs i = some orig)
    (h1 : suffixLower i ≠ ".jpg") (h2 : suffixLower i ≠ ".jpeg")
    (h3 : suffixLower i ≠ ".png") (h4 : suffixLower i ≠ ".gif")
    (hbk : (create_backup cfg env st.fs i).1 = true)
    (hit : i ≠ env.temp i)
    (hbd : cfg.backup_dir.absolute = false)
    (hia : i.absolute = true) :
    (compress_image cfg env i q st).exit = JobExit.unsupported ∧
    (compress_image cfg env i q st).trace = [] ∧
    (compress_image cfg env i q st).st.fs i = some orig ∧
    (compress_image cfg env i q st).st.stats.failed = st.stats.failed := by
  have hb : ∀ r, joinP cfg.backup_dir r ≠ i := fun r =>
    joinP_ne_of_abs cfg.backup_dir r i (by simp [hbd, hia])
  unfold compress_image
  rw [hin]
  dsimp only
  rw [if_neg (by simp [hbk]), if_neg (by simp [h1, h2]), if_neg h3, if_neg h4]
  refine ⟨rfl, rfl, ?_, by simp [incProcessed]⟩
  show cleanup (Function.update (create_backup cfg env st.fs i).2 (env.temp i)
    (some orig)) (env.temp i) i = some orig
  rw [cleanup_ne _ _ _ hit, Function.update_noteq hit,
      create_backup_apply_ne _ _ _ _ _ hb]
  exact hin

/-- Filesystem holding only the three-byte `icon.bmp`. -/
def fsBmp : FS := fun p => if p = bmpW then some [1, 2, 3] else none

/-- Initial state for the `icon.bmp` runs. -/
def stBmp : St := ⟨fsBmp, initStats⟩

/-- C7 witness: the concrete `icon.bmp` job is skipped as format not
handled, untouched, with no tool run and `failed` unchanged. -/
theorem c7_unsupported_format_skipped_witness :
    (compress_image cfgW envW1 bmpW 85 stBmp).exit = JobExit.unsupported ∧
    (compress_image cfgW envW1 bmpW 85 stBmp).trace = [] ∧
    (compress_image cfgW envW1 bmpW 85 stBmp).st.fs bmpW = some [1, 2, 3] ∧
    (compress_image cfgW envW1 bmpW 85 stBmp).st.stats.failed
      = stBmp.stats.failed :=
  c7_unsupported_format_skipped cfgW envW1 bmpW 85 stBmp [1, 2, 3]
    (by decide) (by decide) (by decide) (by decide) (by decide) (by decide)
    (by decide) rfl rfl

/-! ### C9 -/

/-- C9: with backups enabled and the override not set, the backup mirror
is written before the format is consulted: a job with an unsupported
extension (such as BMP) still deposits a copy of the original bytes at
`backup_dir / rel_path`, even though the job then ends on the
format-not-handled path with the original untouched. -/
theorem c9_backup_written_before_format (cfg : Config) (env : Env)
    (i : FPath) (q : Nat) (st : St) (orig : List Nat) (rel : List String)
    (hen : cfg.backup_enabled = true)
    (hfo : cfg.force_no_backup_check = false)
    (hin : st.fs i = some orig)
    (hrel : relative_to i env.cwd = some rel)
    (hwr : env.backupWritable (joinP cfg.backup_dir rel) = true)
    (h1 : suffixLower i ≠ ".jpg") (h2 : suffixLower i ≠ ".jpeg")
    (h3 : suffixLower i ≠ ".png") (h4 : suffixLower i ≠ ".gif")
    (hit : i ≠ env.temp i)
    (hib : joinP cfg.backup_dir rel ≠ i)
    (htb : joinP cfg.backup_dir rel ≠ env.temp i) :
    (compress_image cfg env i q st).exit = JobExit.unsupported ∧
    (compress_image cfg env i q st).st.fs (joinP cfg.backup_dir rel)
      = some orig ∧
    (compress_image cfg env i q st).st.fs i = some orig := by
  have hcb := create_backup_success cfg env st.fs i rel orig hfo hen hrel hwr hin
  unfold compress_image
  rw [hin]
  dsimp only
  rw [hcb]
  dsimp only
  rw [if_neg (by simp), if_neg (by simp [h1, h2]), if_neg h3, if_neg h4]
  refine ⟨rfl, ?_, ?_⟩
  · show cleanup (Function.update
      (Function.update st.fs (joinP cfg.backup_dir rel) (some orig))
      (env.temp i) (some orig)) (env.temp i) (joinP cfg.backup_dir rel)
      = some orig
    rw [cleanup_ne _ _ _ htb, Function.update_noteq htb, Function.update_same]
  · show cleanup (Function.update
      (Function.update st.fs (joinP cfg.backup_dir rel) (some orig))
      (env.temp i) (some orig)) (env.temp i) i = some orig
    rw [cleanup_ne _ _ _ hit, Function.update_noteq hit,
        Function.update_noteq (Ne.symm hib)]
    exact hin

/-- C9 witness: the concrete `icon.bmp` job with backups enabled writes
the backup mirror and still ends format-not-handled with the original
untouched. -/
theorem c9_backup_written_before_format_witness :
    (compress_image cfgW envW1 bmpW 85 stBmp).exit = JobExit.unsupported ∧
    (compress_image cfgW envW1 bmpW 85 stBmp).st.fs
      (joinP cfgW.backup_dir ["icon.bmp"]) = some [1, 2, 3] ∧
    (compress_image cfgW envW1 bmpW 85 stBmp).st.fs bmpW = some [1, 2, 3] :=
  c9_backup_written_before_format cfgW envW1 bmpW 85 stBmp [1, 2, 3]
    ["icon.bmp"] rfl rfl (by decide) (by decide) rfl (by decide) (by decide)
    (by decide) (by decide) (by decide) (by decide) (by decide)

/-! ### PNG stage lemmas (C4, C6) -/

lemma pngquantStage_trace (env : Env) (t : FPath) (fs : FS) :
    (pngquantStage env t fs).2.2 = []
      ∨ (pngquantStage env t fs).2.2 = ["pngquant"] := by
  unfold pngquantStage
  split
  · split
    · exact Or.inr rfl
    · dsimp only
      refine Or.inr ?_
      split
      · split <;> rfl
      · rfl
  · exact Or.inl rfl

lemma compress_png_trace_optipng (env : Env) (t : FPath) (fs : FS)
    (ho : env.avail.optipng = true) :
    (compress_png env t fs).trace
      = (pngquantStage env t fs).2.2 ++ ["optipng"] := by
  unfold compress_png
  dsimp only
  rw [ho, if_pos rfl]
  split
  · rfl
  · split <;> rfl

lemma compress_png_trace_zopflipng (env : Env) (t : FPath) (fs : FS)
    (ho : env.avail.optipng = false) (hz : env.avail.zopflipng = true) :
    (compress_png env t fs).trace
      = (pngquantStage env t fs).2.2 ++ ["zopflipng"] := by
  unfold compress_png
  dsimp only
  rw [ho, if_neg (by simp), hz, if_pos rfl]
  split
  · rfl
  · split <;> rfl

lemma compress_png_trace_nolossless (env : Env) (t : FPath) (fs : FS)
    (ho : env.avail.optipng = false) (hz : env.avail.zopflipng = false) :
    (compress_png env t fs).trace = (pngquantStage env t fs).2.2 := by
  unfold compress_png
  dsimp only
  rw [ho, if_neg (by simp), hz, if_neg (by simp)]

lemma pngquantStage_keeps_temp (env : Env) (t : FPath) (fs : FS) (c : List Nat)
    (htt : tmpOf t ≠ t) (hc : fs t = some c) :
    ∃ c2, (pngquantStage env t fs).2.1 t = some c2 := by
  unfold pngquantStage
  split
  · rw [hc]
    dsimp only
    rcases hr : (env.pngquant c).2 with _ | out
    · simp only [hr]
      split
      · split
        · next o ho =>
          refine ⟨o, ?_⟩
          dsimp only
          rw [Function.update_noteq (Ne.symm htt), Function.update_same]
        · exact ⟨c, hc⟩
      · exact ⟨c, hc⟩
    · simp only [hr]
      split
      · split
        · next o ho =>
          refine ⟨o, ?_⟩
          dsimp only
          rw [Function.update_noteq (Ne.symm htt), Function.update_same]
        · refine ⟨c, ?_⟩
          dsimp only
          rw [Function.update_noteq (Ne.symm htt)]
          exact hc
      · refine ⟨c, ?_⟩
        dsimp only
        rw [Function.update_noteq (Ne.symm htt)]
        exact hc
  · exact ⟨c, hc⟩

lemma pngquantStage_ok (env : Env) (t : FPath) (fs : FS) (c0 o : List Nat)
    (hq : env.avail.pngquant = true) (hc : fs t = some c0)
    (hex : (env.pngquant c0).1 = true) (ho2 : (env.pngquant c0).2 = some o) :
    (pngquantStage env t fs).1 = true := by
  unfold pngquantStage
  rw [hq, if_pos rfl, hc]
  dsimp only
  rw [ho2]
  dsimp only
  rw [if_pos hex]
  simp [Function.update_same]

/-! ### C6 -/

/-- C6: on any PNG job at most one of the two lossless optimizers is
invoked, optipng is always the one invoked when it is available
(regardless of zopflipng), zopflipng is invoked exactly when optipng is
unavailable and zopflipng is available, and the two are never both in
the job's invocation trace. -/
theorem c6_single_lossless_optimizer (env : Env) (t : FPath) (fs : FS) :
    (compress_png env t fs).trace.count "optipng"
      + (compress_png env t fs).trace.count "zopflipng" ≤ 1 ∧
    (env.avail.optipng = true →
      (compress_png env t fs).trace.count "optipng" = 1 ∧
      (compress_png env t fs).trace.count "zopflipng" = 0) ∧
    (env.avail.optipng = false → env.avail.zopflipng = true →
      (compress_png env t fs).trace.count "zopflipng" = 1 ∧
      (compress_png env t fs).trace.count "optipng" = 0) := by
  rcases pngquantStage_trace env t fs with h1 | h1
  · refine ⟨?_, fun ho => ?_, fun ho hz => ?_⟩
    · cases ho : env.avail.optipng
      · cases hz : env.avail.zopflipng
        · rw [compress_png_trace_nolossless env t fs ho hz, h1]; decide
        · rw [compress_png_trace_zopflipng env t fs ho hz, h1]; decide
      · rw [compress_png_trace_optipng env t fs ho, h1]; decide
    · rw [compress_png_trace_optipng env t fs ho, h1]
      exact ⟨by decide, by decide⟩
    · rw [compress_png_trace_zopflipng env t fs ho hz, h1]
      exact ⟨by decide, by decide⟩
  · refine ⟨?_, fun ho => ?_, fun ho hz => ?_⟩
    · cases ho : env.avail.optipng
      · cases hz : env.avail.zopflipng
        · rw [compress_png_trace_nolossless env t fs ho hz, h1]; decide
        · rw [compress_png_trace_zopflipng env t fs ho hz, h1]; decide
      · rw [compress_png_trace_optipng env t fs ho, h1]; decide
    · rw [compress_png_trace_optipng env t fs ho, h1]
      exact ⟨by decide, by decide⟩
    · rw [compress_png_trace_zopflipng env t fs ho hz, h1]
      exact ⟨by decide, by decide⟩

/-- Host with both lossless PNG optimizers (and pngquant) available. -/
def envC6 : Env :=
  { cwd := wCwd
    backupWritable := fun _ => true
    avail := ⟨false, true, true, true, false, false⟩
    cjpeg := fun _ _ => (false, none)
    pngquant := fun _ => (true, some [9])
    optipng := fun _ => (true, [8])
    zopflipng := fun _ => (true, [7])
    gifsicle := fun _ => (false, [])
    temp := tempFun }

/-- Filesystem holding only the three-byte `pic.png`. -/
def fsPng : FS := fun p => if p = pngW then some [1, 2, 3] else none

/-- C6 witness: with both lossless optimizers present, only optipng is
invoked on the concrete PNG scratch file. -/
theorem c6_single_lossless_optimizer_witness :
    (compress_png envC6 (tempFun pngW) fsPng).trace.count "optipng" = 1 ∧
    (compress_png envC6 (tempFun pngW) fsPng).trace.count "zopflipng" = 0 :=
  (c6_single_lossless_optimizer envC6 (tempFun pngW) fsPng).2.1 rfl

/-! ### C4 -/

/-- Host where pngquant is available and succeeds (writing smaller
output) but optipng is available and fails with a non-zero exit. -/
def envC4 : Env :=
  { cwd := wCwd
    backupWritable := fun _ => true
    avail := ⟨false, true, true, false, false, false⟩
    cjpeg := fun _ _ => (false, none)
    pngquant := fun _ => (true, some [9])
    optipng := fun _ => (false, [])
    zopflipng := fun _ => (false, [])
    gifsicle := fun _ => (false, [])
    temp := tempFun }

/-- Initial state for the `pic.png` counterexample run. -/
def stPng : St := ⟨fsPng, initStats⟩

/-- C4 counterexample: the lossy pngquant stage successfully ran on the
scratch copy (its flag is set, and the quantized single byte is even
strictly smaller than the three-byte original), yet because the later
optipng invocation fails with `check=True` the method-wide handler
returns False: the job is reported not compressed, never reaches the
size comparison, and the original is not replaced. -/
theorem c4_counterexample_lossy_stage_discarded :
    envC4.avail.pngquant = true ∧
    envC4.pngquant [1, 2, 3] = (true, some [9]) ∧
    (pngquantStage envC4 (tempFun pngW)
        (Function.update stPng.fs (tempFun pngW) (some [1, 2, 3]))).1 = true ∧
    (compress_image cfgForce envC4 pngW 85 stPng).exit
      = JobExit.notCompressed ∧
    (compress_image cfgForce envC4 pngW 85 stPng).st.stats.compressed = 0 ∧
    (compress_image cfgForce envC4 pngW 85 stPng).st.fs pngW
      = some [1, 2, 3] := by
  decide

/-- C4 amended: a PNG job is reported compressed — and so proceeds to
the commit step's size comparison regardless of whether the bytes
shrank — provided the attempted `check=True` lossless stage (if any)
does not fail: when optipng is available and exits zero, when optipng
is unavailable but zopflipng is available and exits zero, or when no
lossless optimizer is available but the pngquant stage successfully
produced output.  (A failing lossless stage instead discards the whole
job's compressed flag, as the counterexample shows.) -/
theorem c4_amended_reported_compressed (env : Env) (t : FPath) (fs : FS)
    (c0 o : List Nat) (htt : tmpOf t ≠ t) (hc : fs t = some c0) :
    (env.avail.optipng = true → (∀ c, (env.optipng c).1 = true) →
      (compress_png env t fs).ok = true) ∧
    (env.avail.optipng = false → env.avail.zopflipng = true →
      (∀ c, (env.zopflipng c).1 = true) →
      (compress_png env t fs).ok = true) ∧
    (env.avail.optipng = false → env.avail.zopflipng = false →
      env.avail.pngquant = true → (env.pngquant c0).1 = true →
      (env.pngquant c0).2 = some o →
      (compress_png env t fs).ok = true) := by
  obtain ⟨c2, hc2⟩ := pngquantStage_keeps_temp env t fs c0 htt hc
  refine ⟨fun ho hall => ?_, fun ho hz hall => ?_,
          fun ho hz hq hex ho2 => ?_⟩
  · unfold compress_png
    dsimp only
    rw [ho, if_pos rfl, hc2]
    dsimp only
    rw [if_pos (hall c2)]
  · unfold compress_png
    dsimp only
    rw [ho, if_neg (by simp), hz, if_pos rfl, hc2]
    dsimp only
    rw [if_pos (hall c2)]
  · unfold compress_png
    dsimp only
    rw [ho, if_neg (by simp), hz, if_neg (by simp)]
    exact pngquantStage_ok env t fs c0 o hq hc hex ho2

/-- C4 amended witness: with optipng available and succeeding, the
concrete PNG job is reported compressed. -/
theorem c4_amended_reported_compressed_witness :
    (compress_png envC6 (tempFun pngW)
      (Function.update fsPng (tempFun pngW) (some [1, 2, 3]))).ok = true :=
  (c4_amended_reported_compressed envC6 (tempFun pngW)
      (Function.update fsPng (tempFun pngW) (some [1, 2, 3]))
      [1, 2, 3] [9] (by decide) (by decide)).1 rfl (fun c => rfl)

/-! ### C3 -/

/-- Filesystem holding two BMP files for two-job runs. -/
def fsBmp2 : FS := fun p =>
  if p = bmpW then some [1, 2, 3] else if p = bmpW2 then some [4, 5] else none

/-- C3: at job granularity the accounting is exactly-once — for every
job list, worker count and starting filesystem, the final statistics of
a run satisfy `processed = compressed + skipped + failed` (where
`skipped` counts the jobs whose return path was neither the commit nor
an `except` handler), and `processed` equals the number of jobs.  The
code nevertheless violates the claim's "for every worker count"
quantification: the increments of the shared stats dict are ordinary
read-add-store sequences with no lock, so under two concurrent workers
the interleaving in which both read the counter before either stores
loses an update — two jobs can leave `processed = 1`, breaking the
identity (`1 ≠ 0 + 2 + 0`). -/
theorem c3_stats_identity_and_lost_update :
    (∀ (cfg : Config) (env : Env) (q : Nat) (files : List FPath) (fs0 : FS)
        (w : Nat),
      (process_files cfg env files q w fs0).stats.processed
        = (process_files cfg env files q w fs0).stats.compressed
          + countSkipped (runJobs cfg env q files (initRun files fs0)).1
          + (process_files cfg env files q w fs0).stats.failed ∧
      (process_files cfg env files q w fs0).stats.processed
        = files.length) ∧
    (StatsRace.runSched [1, 0, 1, 0] 0
        [StatsRace.Phase.ready, StatsRace.Phase.ready]).1 = 1 ∧
    (1 : Nat) ≠ 0 + 2 + 0 := by
  refine ⟨fun cfg env q files fs0 w => ?_, by decide, by decide⟩
  obtain ⟨h1, h2, h3, h4⟩ := runJobs_stats cfg env q files (initRun files fs0)
  have h5 := countSplit (runJobs cfg env q files (initRun files fs0)).1
  rw [h1] at h5
  have hp0 : (initRun files fs0).stats.processed = 0 := rfl
  have hc0 : (initRun files fs0).stats.compressed = 0 := rfl
  have hf0 : (initRun files fs0).stats.failed = 0 := rfl
  rw [process_files_eq]
  constructor
  · rw [h2, h3, h4, hp0, hc0, hf0]
    omega
  · rw [h2, hp0]
    omega

/-! ### C8 -/

/-- C8: the shared-stats increments are NOT atomic: each is a separate
read and store of the shared counter (`self.stats[...] += 1` with no
lock, executed by `ThreadPoolExecutor` threads).  Under the interleaved
schedule in which both workers read before either stores, two
increments leave the counter at 1, while any serialized schedule leaves
it at 2 — the value the job-level model produces for the same two-job
list at worker count 1.  Totals for worker counts 1 and 8 therefore
need not agree. -/
theorem c8_unsynchronized_increments_lose_updates :
    (StatsRace.runSched [0, 1, 0, 1] 0
        [StatsRace.Phase.ready, StatsRace.Phase.ready]).1 = 1 ∧
    (StatsRace.runSched [0, 0, 1, 1] 0
        [StatsRace.Phase.ready, StatsRace.Phase.ready]).1 = 2 ∧
    (process_files cfgForce envW1 [bmpW, bmpW2] 85 1 fsBmp2).stats.processed
      = 2 := by
  decide
